import Mathlib

/-!
Verification of the simpleblog department/employee service.

Shallow embedding of the Go sources (models.go, handlers.go, the schema in
migrations/00001_init.sql, and main.go wiring) as executable Lean functions.

Conventions used throughout:
- A Go string is a Lean String; Go len is the UTF-8 byte count, so goLen
  computes the byte length, not the character count.
- Go int is modelled as Int (identifiers, depth, parsed query values).
- The relational store is a Store value: the rows of the departments and
  employees tables, in insertion order.  A query without ORDER BY returns
  rows in that list order.
- An SQL comparison col = NULL (a nil pointer bound to a placeholder, as in
  the GORM condition strings used by this code) matches no row; such
  comparisons are translated to a branch returning false on the none case.
- Fallible operations return Except; handlers return a structure holding the
  HTTP status, the visible store after the request, and a trace of the
  database operations the handler performed.
-/

/-- Row of the departments table (migrations/00001_init.sql): id, name,
parent_id nullable, created_at.  The transient tree-building fields of the Go
struct (gorm tag dash) are not table columns; an in-memory Go Department
value is modelled separately as DeptValue. -/
structure Department where
  id : Int
  name : String
  parentID : Option Int
  createdAt : Nat
deriving Repr, DecidableEq

/-- Row of the employees table: id, department_id (not null), full_name,
position, hired_at nullable, created_at. -/
structure Employee where
  id : Int
  departmentID : Int
  fullName : String
  position : String
  hiredAt : Option Nat
  createdAt : Nat
deriving Repr, DecidableEq

/-- The two tables of the relational store, rows in insertion order. -/
structure Store where
  departments : List Department
  employees : List Employee
deriving Repr, DecidableEq

/-- Unicode code points with the White Space property: the set trimmed by
strings.TrimSpace via unicode.IsSpace in Go. -/
def goIsSpace (c : Char) : Bool :=
  c = ' ' || c = '\t' || c = '\n' || c = '\u000b' || c = '\u000c' || c = '\r' ||
  c = '\u0085' || c = ' ' || c = ' ' ||
  (' ' ≤ c && c ≤ ' ') ||
  c = ' ' || c = ' ' || c = ' ' || c = ' ' || c = '　'

/-- Go strings.TrimSpace: drop leading and trailing white space. -/
def goTrim (s : String) : String :=
  ⟨(((s.data.dropWhile goIsSpace).reverse.dropWhile goIsSpace)).reverse⟩

/-- Go len on a string: the number of UTF-8 bytes. -/
def goLen (s : String) : Nat :=
  (s.data.map Char.utf8Size).sum

/-- Numeric value of a list of decimal digit characters. -/
def digitsVal (ds : List Char) : Nat :=
  ds.foldl (fun acc c => acc * 10 + (c.toNat - '0'.toNat)) 0

/-- Go strconv.Atoi: optional sign followed by at least one decimal digit;
anything else is a syntax error.  (The range error of the 64-bit Go int is
not modelled; every request value exercised here is small.) -/
def goAtoi (s : String) : Except Unit Int :=
  match s.data with
  | [] => .error ()
  | c :: rest =>
    let signed : Int × List Char :=
      if c = '-' then (-1, rest) else if c = '+' then (1, rest) else (1, c :: rest)
    if signed.2 = [] then .error ()
    else if signed.2.all (fun d => d.isDigit) then .ok (signed.1 * (digitsVal signed.2 : Int))
    else .error ()

/-- Go strconv.ParseBool: the exact accepted spellings. -/
def goParseBool (s : String) : Except Unit Bool :=
  if s = "1" || s = "t" || s = "T" || s = "TRUE" || s = "true" || s = "True" then .ok true
  else if s = "0" || s = "f" || s = "F" || s = "FALSE" || s = "false" || s = "False" then .ok false
  else .error ()

/-- BeforeSave hook of Department (models.go lines 32 to 53): trim the name,
reject empty or over-200-byte names, then count existing rows with the same
name under the same parent (excluding the row itself on update) and reject a
positive count.  The sibling query is the GORM condition string
name = ? AND parent_id = ?; binding a nil parent pointer yields the SQL
comparison parent_id = NULL, which matches no row, hence the false branch on
the none case.  The hook mutates the record, so the trimmed record is
returned on success. -/
def Department.BeforeSave (d : Department) (tx : List Department) : Except String Department :=
  let name := goTrim d.name
  if goLen name = 0 then .error "name cannot be empty"
  else if goLen name > 200 then .error "name too long (max 200)"
  else
    let base := tx.filter (fun r =>
      r.name = name && (match d.parentID with
        | some p => r.parentID = some p
        | none => false))
    let siblings := if d.id ≠ 0 then base.filter (fun r => r.id ≠ d.id) else base
    if siblings.length > 0 then .error "department name must be unique within the same parent"
    else .ok { d with name := name }

/-- BeforeSave hook of Employee (models.go lines 55 to 71): trim full_name
and position and enforce the nonempty and at-most-200-byte bounds, in the
order of the Go code.  Returns the trimmed record on success. -/
def Employee.BeforeSave (e : Employee) : Except String Employee :=
  let fullName := goTrim e.fullName
  if goLen fullName = 0 then .error "full_name cannot be empty"
  else if goLen fullName > 200 then .error "full_name too long (max 200)"
  else
    let position := goTrim e.position
    if goLen position = 0 then .error "position cannot be empty"
    else if goLen position > 200 then .error "position too long (max 200)"
    else .ok { e with fullName := fullName, position := position }


/-- Identifiers plucked by the query parent_id = x over the departments
table, in row order (models.go lines 83 and 98 to 99). -/
def childIDs (db : List Department) (x : Int) : List Int :=
  (db.filter (fun d => d.parentID = some x)).map (fun d => d.id)

/-- Identifier column of the departments table. -/
def dbIDs (db : List Department) : List Int :=
  db.map (fun d => d.id)

theorem childIDs_mem_dbIDs (db : List Department) (x : Int) :
    ∀ y ∈ childIDs db x, y ∈ dbIDs db := by
  intro y hy
  simp only [childIDs, List.mem_map, List.mem_filter] at hy
  obtain ⟨d, ⟨hd, _⟩, rfl⟩ := hy
  exact List.mem_map.mpr ⟨d, hd, rfl⟩

theorem childIDs_length_le (db : List Department) (x : Int) :
    (childIDs db x).length ≤ db.length := by
  simpa [childIDs] using List.length_filter_le _ db

theorem length_filter_le_of_imp {l : List Int} {p q : Int → Bool}
    (h : ∀ x, p x = true → q x = true) :
    (l.filter p).length ≤ (l.filter q).length := by
  induction l with
  | nil => simp
  | cons a t ih =>
    by_cases hp : p a = true
    · simp [List.filter, hp, h a hp]; omega
    · simp only [List.filter, hp]
      by_cases hq : q a = true <;> simp [hq] <;> omega

theorem length_filter_lt_of_strict {l : List Int} {p q : Int → Bool}
    (himp : ∀ x, p x = true → q x = true) (c : Int)
    (hc : c ∈ l) (hpc : p c = false) (hqc : q c = true) :
    (l.filter p).length < (l.filter q).length := by
  induction l with
  | nil => cases hc
  | cons a t ih =>
    have hmono := length_filter_le_of_imp (l := t) himp
    cases hpa : p a with
    | true =>
      have hqa : q a = true := himp a hpa
      have hac : a ≠ c := fun h => by rw [h, hpc] at hpa; cases hpa
      have hct : c ∈ t := by
        rcases List.mem_cons.mp hc with h | h
        · exact absurd h.symm hac
        · exact h
      have := ih hct
      simp only [List.filter_cons, hpa, hqa, if_true, List.length_cons]
      omega
    | false =>
      cases hqa : q a with
      | true =>
        simp only [List.filter_cons, hpa, hqa, if_true, List.length_cons,
          Bool.false_eq_true, if_false]
        omega
      | false =>
        have hac : a ≠ c := fun h => by rw [h, hqc] at hqa; cases hqa
        have hct : c ∈ t := by
          rcases List.mem_cons.mp hc with h | h
          · exact absurd h.symm hac
          · exact h
        have := ih hct
        simpa only [List.filter_cons, hpa, hqa, Bool.false_eq_true, if_false] using this

theorem length_filter_cons_visited_lt (l : List Int) (c : Int) (visited : List Int)
    (hc : c ∈ l) (hnv : c ∉ visited) :
    (l.filter (fun x => decide (x ∉ c :: visited))).length <
      (l.filter (fun x => decide (x ∉ visited))).length := by
  refine length_filter_lt_of_strict ?_ c hc ?_ ?_
  · intro x hx
    simp only [decide_eq_true_eq] at hx ⊢
    exact fun h => hx (List.mem_cons_of_mem _ h)
  · simp
  · simpa using hnv

/-- Breadth-first loop of Department.CheckCycle (models.go lines 86 to 103):
pop the head of the queue, skip it when already visited, otherwise mark it,
fail when it is the proposed parent, and enqueue its children.  The proof
argument records that every queued identifier is an id column value, which
is how the Go loop terminates: each identifier is marked at most once. -/
def bfs (db : List Department) (target : Int) :
    (queue : List Int) → (visited : List Int) →
    (hq : ∀ x ∈ queue, x ∈ dbIDs db) → Except String Unit
  | [], _, _ => .ok ()
  | current :: rest, visited, hq =>
    if current ∈ visited then
      bfs db target rest visited (fun x hx => hq x (List.mem_cons_of_mem _ hx))
    else if current = target then
      .error "cannot move department inside its own subtree"
    else
      bfs db target (rest ++ childIDs db current) (current :: visited)
        (fun x hx => (List.mem_append.mp hx).elim
          (fun h => hq x (List.mem_cons_of_mem _ h))
          (fun h => childIDs_mem_dbIDs db current x h))
  termination_by queue visited _ =>
    ((dbIDs db).filter (fun x => decide (x ∉ visited))).length * (db.length + 1) + queue.length
  decreasing_by
  · simp only [List.length_cons]; omega
  · rename_i hvis _
    have hcdb : current ∈ dbIDs db := hq current (List.mem_cons_self _ _)
    have hlt := length_filter_cons_visited_lt (dbIDs db) current visited hcdb hvis
    have hch : (childIDs db current).length ≤ db.length := childIDs_length_le db current
    set F := ((dbIDs db).filter (fun x => decide (x ∉ visited))).length
    set G := ((dbIDs db).filter (fun x => decide (x ∉ current :: visited))).length
    have hmul : (G + 1) * (db.length + 1) ≤ F * (db.length + 1) :=
      Nat.mul_le_mul_right _ hlt
    simp only [List.length_append, List.length_cons]
    nlinarith [hmul, hch]

/-- CheckCycle (models.go lines 74 to 105): a nil proposed parent is always
safe, the own identifier is rejected at once, and otherwise the breadth-first
walk starts from the direct children with the department itself pre-marked
as visited. -/
def Department.CheckCycle (d : Department) (db : List Department)
    (newParentID : Option Int) : Except String Unit :=
  match newParentID with
  | none => .ok ()
  | some p =>
    if p = d.id then .error "cannot be parent of itself"
    else bfs db p (childIDs db d.id) [d.id] (childIDs_mem_dbIDs db d.id)

/-- Edge relation of the department forest: y is a direct child row of x. -/
def childRel (db : List Department) (x y : Int) : Prop :=
  y ∈ childIDs db x


theorem bfs_error_of (db : List Department) (target : Int) (P : Int → Prop)
    (hstep : ∀ x, P x → ∀ y ∈ childIDs db x, P y) :
    ∀ queue visited hq, (∀ x ∈ queue, P x) →
      ∀ e, bfs db target queue visited hq = .error e → P target := by
  intro queue visited hq
  induction queue, visited, hq using bfs.induct db target with
  | case1 visited h1 h2 =>
    intro _ e heq
    rw [bfs] at heq
    cases heq
  | case2 current rest visited hq1 hvis hq2 ih =>
    intro hP e heq
    rw [bfs, if_pos hvis] at heq
    exact ih (fun x hx => hP x (List.mem_cons_of_mem _ hx)) e heq
  | case3 rest visited hq1 hvis hq2 =>
    intro hP e heq
    exact hP target (List.mem_cons_self _ _)
  | case4 current rest visited hq1 hvis hne hq2 ih =>
    intro hP e heq
    rw [bfs, if_neg hvis, if_neg hne] at heq
    refine ih ?_ e heq
    intro x hx
    rcases List.mem_append.mp hx with h | h
    · exact hP x (List.mem_cons_of_mem _ h)
    · exact hstep current (hP current (List.mem_cons_self _ _)) x h

theorem closed_reach_mem (db : List Department) (V : List Int)
    (hclosed : ∀ v ∈ V, ∀ c ∈ childIDs db v, c ∈ V) :
    ∀ x ∈ V, ∀ y, Relation.ReflTransGen (childRel db) x y → y ∈ V := by
  intro x hx y hxy
  induction hxy with
  | refl => exact hx
  | tail _ hstep ih => exact hclosed _ ih _ hstep

theorem bfs_ok_avoid (db : List Department) (target : Int) :
    ∀ queue visited hq, bfs db target queue visited hq = .ok () →
      target ∉ visited →
      (∀ v ∈ visited, ∀ c ∈ childIDs db v, c ∈ visited ∨ c ∈ queue) →
      ∀ x, (x ∈ visited ∨ x ∈ queue) →
        ∀ y, Relation.ReflTransGen (childRel db) x y → y ≠ target := by
  intro queue visited hq
  induction queue, visited, hq using bfs.induct db target with
  | case1 visited h1 h2 =>
    intro _ htv hclosed x hx y hxy
    have hcl : ∀ v ∈ visited, ∀ c ∈ childIDs db v, c ∈ visited := by
      intro v hv c hc
      rcases hclosed v hv c hc with h | h
      · exact h
      · cases h
    have hxv : x ∈ visited := by
      rcases hx with h | h
      · exact h
      · cases h
    intro hyt
    exact htv (hyt ▸ closed_reach_mem db visited hcl x hxv y hxy)
  | case2 current rest visited hq1 hvis hq2 ih =>
    intro heq htv hclosed x hx y hxy
    rw [bfs, if_pos hvis] at heq
    refine ih heq htv ?_ x ?_ y hxy
    · intro v hv c hc
      rcases hclosed v hv c hc with h | h
      · exact Or.inl h
      · rcases List.mem_cons.mp h with rfl | h
        · exact Or.inl hvis
        · exact Or.inr h
    · rcases hx with h | h
      · exact Or.inl h
      · rcases List.mem_cons.mp h with rfl | h
        · exact Or.inl hvis
        · exact Or.inr h
  | case3 rest visited hq1 hvis hq2 =>
    intro heq
    rw [bfs, if_neg hvis, if_pos rfl] at heq
    cases heq
  | case4 current rest visited hq1 hvis hne hq2 ih =>
    intro heq htv hclosed x hx y hxy
    rw [bfs, if_neg hvis, if_neg hne] at heq
    have htv2 : target ∉ current :: visited := by
      intro h
      rcases List.mem_cons.mp h with h | h
      · exact hne h.symm
      · exact htv h
    refine ih heq htv2 ?_ x ?_ y hxy
    · intro v hv c hc
      rcases List.mem_cons.mp hv with rfl | hv
      · exact Or.inr (List.mem_append_right _ hc)
      · rcases hclosed v hv c hc with h | h
        · exact Or.inl (List.mem_cons_of_mem _ h)
        · rcases List.mem_cons.mp h with rfl | h
          · exact Or.inl (List.mem_cons_self _ _)
          · exact Or.inr (List.mem_append_left _ h)
    · rcases hx with h | h
      · exact Or.inl (List.mem_cons_of_mem _ h)
      · rcases List.mem_cons.mp h with rfl | h
        · exact Or.inl (List.mem_cons_self _ _)
        · exact Or.inr (List.mem_append_left _ h)

/-- Soundness half of the cycle check: an error is only reported when the
proposed parent really lies in the subtree below the department. -/
theorem CheckCycle_error_desc (db : List Department) (d : Department) (p : Int)
    (e : String) (hp : p ≠ d.id)
    (herr : d.CheckCycle db (some p) = .error e) :
    Relation.TransGen (childRel db) d.id p := by
  rw [Department.CheckCycle, if_neg (fun h => hp h)] at herr
  exact bfs_error_of db p (fun x => Relation.TransGen (childRel db) d.id x)
    (fun x hx y hy => Relation.TransGen.tail hx hy)
    (childIDs db d.id) [d.id] (childIDs_mem_dbIDs db d.id)
    (fun x hx => Relation.TransGen.single hx) e herr

/-- Completeness half: when the proposed parent is a strict descendant, the
walk does report an error. -/
theorem CheckCycle_desc_error (db : List Department) (d : Department) (p : Int)
    (hp : p ≠ d.id) (hdesc : Relation.TransGen (childRel db) d.id p) :
    ∃ e, d.CheckCycle db (some p) = .error e := by
  rw [Department.CheckCycle, if_neg (fun h => hp h)]
  rcases hres : bfs db p (childIDs db d.id) [d.id] (childIDs_mem_dbIDs db d.id) with e | u
  case error => exact ⟨e, rfl⟩
  · rcases Relation.TransGen.head'_iff.mp hdesc with ⟨m, hm, hmp⟩
    cases u
    have := bfs_ok_avoid db p (childIDs db d.id) [d.id] (childIDs_mem_dbIDs db d.id)
      hres
      (by
        intro h
        rcases List.mem_cons.mp h with h | h
        · exact hp h
        · cases h)
      (by
        intro v hv c hc
        rcases List.mem_cons.mp hv with rfl | hv
        · exact Or.inr hc
        · cases hv)
      m (Or.inr hm) p hmp
    exact absurd rfl this

/-- One round of the referential cascade of the schema
(migrations/00001_init.sql): departments whose parent is already in the
removed set join the removed set. -/
def descStep (db : List Department) (s : List Int) : List Int :=
  s ++ (db.filter (fun d =>
    (match d.parentID with
      | some p => s.contains p
      | none => false) && !(s.contains d.id))).map (fun d => d.id)

/-- Iterate the cascade round a fixed number of times. -/
def descIter (db : List Department) : Nat → List Int → List Int
  | 0, s => s
  | n + 1, s => descIter db n (descStep db s)

/-- Identifiers removed when the departments row with identifier root is
deleted: the row itself plus, transitively, every department whose parent
chain reaches it.  One round per table row reaches the fixed point. -/
def cascadeIDs (db : List Department) (root : Int) : List Int :=
  descIter db db.length [root]

/-- Effect of DELETE on the departments row with identifier root under the
ON DELETE CASCADE rules of both foreign keys: the removed department set is
closed under the parent relation, and employees of removed departments go
with them. -/
def applyCascadeDelete (st : Store) (root : Int) : Store :=
  let ids := cascadeIDs st.departments root
  { departments := st.departments.filter (fun d => !(ids.contains d.id)),
    employees := st.employees.filter (fun e => !(ids.contains e.departmentID)) }

theorem descStep_eq_self (db : List Department) (s : List Int)
    (h : ∀ d ∈ db, (match d.parentID with
      | some p => s.contains p
      | none => false) = true → s.contains d.id = true) :
    descStep db s = s := by
  have hfil : db.filter (fun d =>
      (match d.parentID with
        | some p => s.contains p
        | none => false) && !(s.contains d.id)) = [] := by
    rw [List.filter_eq_nil_iff]
    intro d hd
    simp only [Bool.and_eq_true, Bool.not_eq_true', not_and, Bool.not_eq_false]
    intro hpar
    exact h d hd hpar
  unfold descStep
  rw [hfil]
  simp

theorem descIter_fixed (db : List Department) (s : List Int)
    (h : descStep db s = s) : ∀ n, descIter db n s = s := by
  intro n
  induction n with
  | zero => rfl
  | succ n ih => rw [descIter, h]; exact ih

/-- When no row names root as its parent, the cascade removes only root. -/
theorem cascadeIDs_no_children (db : List Department) (root : Int)
    (h : ∀ d ∈ db, d.parentID ≠ some root) :
    cascadeIDs db root = [root] := by
  refine descIter_fixed db [root] (descStep_eq_self db [root] ?_) db.length
  intro d hd hpar
  match hp : d.parentID with
  | none => rw [hp] at hpar; cases hpar
  | some p =>
    rw [hp] at hpar
    simp only [List.contains_cons, List.contains_nil, Bool.or_false, beq_iff_eq] at hpar
    exact absurd (hp.trans (by rw [hpar])) (h d hd)

/-- Database operations a delete request can perform, in the order the
handler issues them; the trace a handler returns records them. -/
inductive DbOp where
  | firstDept
  | beginTx
  | firstTarget
  | updEmployees
  | updDepartments
  | deleteDept
  | commitTx
  | rollbackTx
  | findRoot
  | findLevelChildren
  | findEmployees
deriving Repr, DecidableEq

/-- Failure oracle: which database operations fail with a backend error.
noFail makes every operation succeed. -/
def noFail : DbOp → Bool := fun _ => false

/-- Result of the delete handler: HTTP status, the store visible after the
request (the committed state), and the trace of performed operations. -/
structure DelResult where
  status : Nat
  store : Store
  effects : List DbOp
deriving Repr, DecidableEq

/-- deleteDepartment (handlers.go lines 323 to 416).  The identifier has
already been parsed from the path; mode and reassign_to_department_id arrive
as raw query strings, empty when absent.  An empty mode defaults to cascade.
The handler reads the department and opens the transaction before the mode
is inspected; writes happen on the pending transaction state and become
visible only at commit, and every failing step inside the transaction rolls
back, so the visible store is unchanged on any failure.  The invalid-mode
branch responds 400 after the read and the begin without writing.  The
failsOn oracle injects backend failures per operation. -/
def deleteDepartment (st : Store) (deptID : Int) (modeStr : String)
    (reassignToStr : String) (failsOn : DbOp → Bool) : DelResult :=
  let mode := if modeStr = "" then "cascade" else modeStr
  match (if reassignToStr = "" then Except.ok (none : Option Int)
         else (goAtoi reassignToStr).map some) with
  | .error _ => ⟨400, st, []⟩
  | .ok reassignTo =>
    if mode = "reassign" && reassignTo.isNone then ⟨400, st, []⟩
    else if failsOn .firstDept then ⟨500, st, [.firstDept]⟩
    else match st.departments.find? (fun d => d.id = deptID) with
    | none => ⟨404, st, [.firstDept]⟩
    | some _dept =>
      if failsOn .beginTx then ⟨500, st, [.firstDept, .beginTx]⟩
      else if mode = "cascade" then
        if failsOn .deleteDept then
          ⟨500, st, [.firstDept, .beginTx, .deleteDept, .rollbackTx]⟩
        else if failsOn .commitTx then
          ⟨500, st, [.firstDept, .beginTx, .deleteDept, .commitTx]⟩
        else
          ⟨204, applyCascadeDelete st deptID, [.firstDept, .beginTx, .deleteDept, .commitTx]⟩
      else if mode = "reassign" then
        match reassignTo with
        | none =>
          -- unreachable: guarded by the required-parameter check above
          ⟨400, st, [.firstDept, .beginTx]⟩
        | some t =>
          if failsOn .firstTarget then
            ⟨500, st, [.firstDept, .beginTx, .firstTarget, .rollbackTx]⟩
          else match st.departments.find? (fun d => d.id = t) with
          | none => ⟨404, st, [.firstDept, .beginTx, .firstTarget, .rollbackTx]⟩
          | some _target =>
            if failsOn .updEmployees then
              ⟨500, st, [.firstDept, .beginTx, .firstTarget, .updEmployees, .rollbackTx]⟩
            else
              let emps := st.employees.map (fun e =>
                if e.departmentID = deptID then { e with departmentID := t } else e)
              if failsOn .updDepartments then
                ⟨500, st, [.firstDept, .beginTx, .firstTarget, .updEmployees,
                  .updDepartments, .rollbackTx]⟩
              else
                let deps := st.departments.map (fun d =>
                  if d.parentID = some deptID then { d with parentID := some t } else d)
                if failsOn .deleteDept then
                  ⟨500, st, [.firstDept, .beginTx, .firstTarget, .updEmployees,
                    .updDepartments, .deleteDept, .rollbackTx]⟩
                else
                  let pending := applyCascadeDelete ⟨deps, emps⟩ deptID
                  if failsOn .commitTx then
                    ⟨500, st, [.firstDept, .beginTx, .firstTarget, .updEmployees,
                      .updDepartments, .deleteDept, .commitTx]⟩
                  else
                    ⟨204, pending, [.firstDept, .beginTx, .firstTarget, .updEmployees,
                      .updDepartments, .deleteDept, .commitTx]⟩
      else ⟨400, st, [.firstDept, .beginTx]⟩


/-- Query parameters of GET after parsing (handlers.go lines 137 to 162). -/
structure GetParams where
  depth : Int
  includeEmployees : Bool
  sortBy : String
deriving Repr, DecidableEq

/-- Query parsing of getDepartment (handlers.go lines 137 to 162): depth
defaults to 1 and accepts integers 1 to 5; include_employees defaults to
true and accepts the strconv.ParseBool spellings; sort_employees defaults to
full_name and accepts only full_name or created_at.  An empty raw value is
an absent parameter, as with URL.Query().Get. -/
def parseGetParams (depthStr ieStr sortStr : String) : Except String GetParams :=
  match (if depthStr = "" then Except.ok 1
         else match goAtoi depthStr with
           | .ok v => if 1 ≤ v && v ≤ 5 then .ok v
             else .error "depth must be integer between 1 and 5"
           | .error _ => .error "depth must be integer between 1 and 5") with
  | .error e => .error e
  | .ok depth =>
    match (if ieStr = "" then Except.ok true
           else match goParseBool ieStr with
             | .ok v => .ok v
             | .error _ => .error "include_employees must be boolean") with
    | .error e => .error e
    | .ok includeEmployees =>
      if sortStr = "" then .ok ⟨depth, includeEmployees, "full_name"⟩
      else if sortStr = "full_name" || sortStr = "created_at" then
        .ok ⟨depth, includeEmployees, sortStr⟩
      else .error "sort_employees must be full_name or created_at"

/-- In-memory Go Department value during tree assembly: the row plus the
transient children and employees fields (gorm tag dash).  A row freshly
materialized by a query carries empty transients. -/
inductive DeptValue where
  | mk (row : Department) (children : List DeptValue) (employees : List Employee)

def DeptValue.row : DeptValue → Department
  | .mk r _ _ => r

def DeptValue.children : DeptValue → List DeptValue
  | .mk _ c _ => c

def DeptValue.employees : DeptValue → List Employee
  | .mk _ _ e => e

/-- A freshly loaded Go Department value: row fields only. -/
def loadDept (d : Department) : DeptValue := .mk d [] []

/-- Entry of the in-memory deptMap: a Go Department value and its level. -/
structure DeptNode where
  dept : DeptValue
  level : Nat

/-- Response shape of one employee (handlers.go lines 39 to 46). -/
structure EmployeeResponse where
  id : Int
  departmentID : Int
  fullName : String
  position : String
  hiredAt : Option Nat
  createdAt : Nat
deriving Repr, DecidableEq

def empToResponse (e : Employee) : EmployeeResponse :=
  ⟨e.id, e.departmentID, e.fullName, e.position, e.hiredAt, e.createdAt⟩

/-- Response shape of one department (handlers.go lines 30 to 37). -/
inductive DeptResponse where
  | mk (id : Int) (name : String) (parentID : Option Int) (createdAt : Nat)
      (employees : List EmployeeResponse) (children : List DeptResponse)

def DeptResponse.id : DeptResponse → Int
  | .mk i _ _ _ _ _ => i

def DeptResponse.employees : DeptResponse → List EmployeeResponse
  | .mk _ _ _ _ e _ => e

def DeptResponse.children : DeptResponse → List DeptResponse
  | .mk _ _ _ _ _ c => c

/-- Level-by-level load of the subtree (handlers.go lines 183 to 198): for
each level up to depth, fetch the departments whose parent is in the current
identifier set (row order; a NULL parent matches no IN list) and append them
to the map in that order; stop early on an empty level. -/
def loadLevels (db : List Department) (fuel : Nat) (level : Nat)
    (currentIDs : List Int) (acc : List (Int × DeptNode)) : List (Int × DeptNode) :=
  match fuel with
  | 0 => acc
  | fuel + 1 =>
    if currentIDs = [] then acc
    else
      let children := db.filter (fun d =>
        match d.parentID with
        | some p => currentIDs.contains p
        | none => false)
      let acc2 := acc ++ children.map (fun c => (c.id, ⟨loadDept c, level⟩))
      loadLevels db fuel (level + 1) (children.map (fun c => c.id)) acc2

/-- Map lookup: first entry with the key, as the Go map holds one node per
identifier. -/
def mapFind (m : List (Int × DeptNode)) (k : Int) : Option DeptNode :=
  (m.find? (fun kv => kv.1 = k)).map (fun kv => kv.2)

/-- One step of the parent-child linking loop (handlers.go lines 200 to
207): look at the node of key k; when its parent is in the map, append a
copy of the node value, as it is at this moment, to the parent node. -/
def linkStep (m : List (Int × DeptNode)) (k : Int) : List (Int × DeptNode) :=
  match mapFind m k with
  | none => m
  | some node =>
    match node.dept.row.parentID with
    | none => m
    | some p =>
      match mapFind m p with
      | none => m
      | some _ =>
        m.map (fun kv =>
          if kv.1 = p then
            (kv.1, ⟨.mk kv.2.dept.row (kv.2.dept.children ++ [node.dept])
              kv.2.dept.employees, kv.2.level⟩)
          else kv)

/-- The linking loop ranges over the Go map, whose iteration order is
unspecified; iterOrder is that order, one key per entry. -/
def linkAll (m : List (Int × DeptNode)) (iterOrder : List Int) : List (Int × DeptNode) :=
  iterOrder.foldl linkStep m

/-- Boolean string order used for ORDER BY full_name. -/
def strLe (a b : String) : Bool := !(b < a)

/-- Employee fetch (handlers.go lines 210 to 233): all employees of the
loaded departments in one query, ordered by the requested key. -/
def loadEmployees (emps : List Employee) (ids : List Int) (sortBy : String) : List Employee :=
  let hit := emps.filter (fun e => ids.contains e.departmentID)
  if sortBy = "full_name" then hit.mergeSort (fun a b => strLe a.fullName b.fullName)
  else hit.mergeSort (fun a b => a.createdAt ≤ b.createdAt)

/-- Distribution of the fetched employees into the map nodes (handlers.go
lines 226 to 232): each node receives the employees of its department in
fetched order. -/
def attachEmployees (m : List (Int × DeptNode)) (emps : List Employee) :
    List (Int × DeptNode) :=
  m.map (fun kv =>
    (kv.1, ⟨.mk kv.2.dept.row kv.2.dept.children
      (emps.filter (fun e => e.departmentID = kv.1)), kv.2.level⟩))

mutual
/-- Recursive rendering (handlers.go lines 236 to 262): the own fields, the
employees when requested, and the children only while currentDepth is below
depth. -/
def toResponse (depth : Int) (includeEmployees : Bool) (dept : DeptValue)
    (currentDepth : Int) : DeptResponse :=
  .mk dept.row.id dept.row.name dept.row.parentID dept.row.createdAt
    (if includeEmployees then dept.employees.map empToResponse else [])
    (if currentDepth < depth then
      toResponseList depth includeEmployees dept.children (currentDepth + 1)
    else [])
  termination_by ((depth - currentDepth).toNat, 0)

def toResponseList (depth : Int) (includeEmployees : Bool) (cs : List DeptValue)
    (currentDepth : Int) : List DeptResponse :=
  match cs with
  | [] => []
  | c :: rest =>
    toResponse depth includeEmployees c currentDepth ::
      toResponseList depth includeEmployees rest currentDepth
  termination_by ((depth - currentDepth).toNat, cs.length + 1)
end

/-- Result of the GET handler: status, optional body, and operation trace.
The store is read-only here. -/
structure GetResult where
  status : Nat
  body : Option DeptResponse
  effects : List DbOp

/-- getDepartment (handlers.go lines 128 to 266).  The identifier is already
parsed from the path; the three raw query strings are empty when absent;
iterOrder is the unspecified Go map iteration order of the linking loop.
After loading and linking the map, the handler renders rootDept, the local
variable loaded at the start, whose transient fields were never touched by
the linking (the map holds copies), so the rendered tree is the bare root. -/
def getDepartment (st : Store) (deptID : Int) (depthStr ieStr sortStr : String)
    (iterOrder : List Int) : GetResult :=
  match parseGetParams depthStr ieStr sortStr with
  | .error _ => ⟨400, none, []⟩
  | .ok params =>
    match st.departments.find? (fun d => d.id = deptID) with
    | none => ⟨404, none, [.findRoot]⟩
    | some rootRow =>
      let rootDept := loadDept rootRow
      let deptMap0 : List (Int × DeptNode) := [(rootRow.id, ⟨rootDept, 0⟩)]
      let deptMap1 := loadLevels st.departments params.depth.toNat 1 [rootRow.id] deptMap0
      let deptMap2 := linkAll deptMap1 iterOrder
      let deptMap3 :=
        if params.includeEmployees then
          attachEmployees deptMap2
            (loadEmployees st.employees (deptMap2.map (fun kv => kv.1)) params.sortBy)
        else deptMap2
      let _ := deptMap3
      ⟨200, some (toResponse params.depth params.includeEmployees rootDept 0),
        [.findRoot, .findLevelChildren] ++
          (if params.includeEmployees then [.findEmployees] else [])⟩

/-- Update request after JSON decoding (handlers.go lines 19 to 22): nil
pointers are absent fields. -/
structure UpdateDepartmentRequest where
  name : Option String
  parentID : Option Int
deriving Repr, DecidableEq

/-- Result of PATCH: status and the visible store. -/
structure UpdResult where
  status : Nat
  store : Store
deriving Repr, DecidableEq

/-- updateDepartment (handlers.go lines 269 to 320): load the department;
when a parent is supplied, check its existence (unless it is zero) and run
CheckCycle, answering 409 on a cycle error; apply the field updates and Save
through the BeforeSave hook, answering 400 on a validation error. -/
def updateDepartment (st : Store) (deptID : Int) (req : UpdateDepartmentRequest) : UpdResult :=
  match st.departments.find? (fun d => d.id = deptID) with
  | none => ⟨404, st⟩
  | some dept =>
    let step1 : Except UpdResult Department :=
      match req.parentID with
      | none => .ok dept
      | some p =>
        if p ≠ 0 then
          match st.departments.find? (fun d => d.id = p) with
          | none => .error ⟨404, st⟩
          | some _ =>
            match dept.CheckCycle st.departments (some p) with
            | .error _ => .error ⟨409, st⟩
            | .ok _ => .ok { dept with parentID := some p }
        else
          match dept.CheckCycle st.departments (some p) with
          | .error _ => .error ⟨409, st⟩
          | .ok _ => .ok { dept with parentID := some p }
    match step1 with
    | .error r => r
    | .ok dept2 =>
      let dept3 := match req.name with
        | some n => { dept2 with name := n }
        | none => dept2
      match dept3.BeforeSave st.departments with
      | .error _ => ⟨400, st⟩
      | .ok saved =>
        ⟨200, ⟨st.departments.map (fun r => if r.id = saved.id then saved else r),
          st.employees⟩⟩


theorem toResponse_nil_children (depth : Int) (ie : Bool) (r : Department) (cd : Int) :
    (toResponse depth ie (loadDept r) cd).children = [] ∧
      (toResponse depth ie (loadDept r) cd).employees = [] := by
  rw [toResponse]
  constructor
  · show (if cd < depth then toResponseList depth ie (loadDept r).children (cd + 1)
      else []) = []
    split
    · rw [show (loadDept r).children = [] from rfl, toResponseList]
    · rfl
  · show (if ie then (loadDept r).employees.map empToResponse else []) = []
    split <;> rfl

/-- Claim C1 (code bug).  The sibling-uniqueness check of			
Department.BeforeSave never fires in the null/root parent scope: the GORM
condition string binds the nil parent as SQL NULL and parent_id = NULL
matches no row, so a second root department named IT is accepted and the
duplicate reaches the store, while the same duplicate under a non-null
shared parent is rejected as the claim states. -/
theorem C1_null_scope_duplicate_accepted :
    Department.BeforeSave ⟨0, "IT", none, 0⟩ [⟨1, "IT", none, 0⟩] =
      .ok ⟨0, "IT", none, 0⟩ ∧
    Department.BeforeSave ⟨0, "IT", some 7, 0⟩ [⟨1, "IT", some 7, 0⟩] =
      .error "department name must be unique within the same parent" :=
  ⟨rfl, rfl⟩

/-- Predicate on the raw reassign_to_department_id value: absent or a
well-formed integer, so that its own parse error does not mask the mode
handling. -/
def reassignParses (s : String) : Prop :=
  s = "" ∨ ∃ v, goAtoi s = .ok v

/-- Claim C2, counterexample to the claim as stated: with an invalid mode
and a department identifier that is not in the store, the handler answers
404, not 400, because it reads the department before inspecting the mode. -/
theorem C2_counterexample :
    (deleteDepartment ⟨[], []⟩ 1 "foo" "" noFail).status = 404 ∧
    DbOp.firstDept ∈ (deleteDepartment ⟨[⟨1, "a", none, 0⟩], []⟩ 1 "foo" "" noFail).effects ∧
    DbOp.beginTx ∈ (deleteDepartment ⟨[⟨1, "a", none, 0⟩], []⟩ 1 "foo" "" noFail).effects :=
  ⟨rfl, by decide, by decide⟩

/-- Claim C2 as amended.  A DELETE with a non-empty mode other than cascade
and reassign fails with 400 and performs no write, but only after the
department read and the transaction begin: when the department exists (and
the reassign parameter itself parses) the result is exactly status 400 with
an unchanged store and a trace of the read and the begin; when the
department does not exist the result is 404, the read alone having run.  In
every case the store is unchanged and no update, delete or commit is
traced. -/
theorem C2_invalid_mode (st : Store) (deptID : Int) (modeStr reassignToStr : String)
    (h1 : modeStr ≠ "") (h2 : modeStr ≠ "cascade") (h3 : modeStr ≠ "reassign") :
    (deleteDepartment st deptID modeStr reassignToStr noFail).store = st ∧
    DbOp.updEmployees ∉ (deleteDepartment st deptID modeStr reassignToStr noFail).effects ∧
    DbOp.updDepartments ∉ (deleteDepartment st deptID modeStr reassignToStr noFail).effects ∧
    DbOp.deleteDept ∉ (deleteDepartment st deptID modeStr reassignToStr noFail).effects ∧
    DbOp.commitTx ∉ (deleteDepartment st deptID modeStr reassignToStr noFail).effects ∧
    (reassignParses reassignToStr →
      (∀ dept, st.departments.find? (fun d => d.id = deptID) = some dept →
        deleteDepartment st deptID modeStr reassignToStr noFail =
          ⟨400, st, [.firstDept, .beginTx]⟩) ∧
      (st.departments.find? (fun d => d.id = deptID) = none →
        deleteDepartment st deptID modeStr reassignToStr noFail =
          ⟨404, st, [.firstDept]⟩)) := by
  have hmode : (if modeStr = "" then "cascade" else modeStr) = modeStr := if_neg h1
  unfold deleteDepartment
  rw [hmode]
  rcases hps : (if reassignToStr = "" then Except.ok (none : Option Int)
      else (goAtoi reassignToStr).map some) with e | reassignTo
  · refine ⟨rfl, by simp, by simp, by simp, by simp, ?_⟩
    intro hp
    exfalso
    rcases hp with h | ⟨v, hv⟩
    · rw [if_pos h] at hps; cases hps
    · rw [if_neg (fun he => by rw [he] at hv; cases hv), hv] at hps; cases hps
  · have hguard : (decide (modeStr = "reassign") && reassignTo.isNone) = false := by
      simp [h3]
    dsimp only
    rw [hguard]
    simp only [Bool.false_eq_true, if_false, noFail]
    rcases hfind : st.departments.find? (fun d => decide (d.id = deptID)) with _ | dept
    · rw [hfind]
      refine ⟨rfl, by simp, by simp, by simp, by simp, ?_⟩
      exact fun _ => ⟨fun dept hd => (by cases hd), fun _ => rfl⟩
    · rw [hfind, if_neg (fun h => h2 h), if_neg (fun h => h3 h)]
      refine ⟨rfl, by simp, by simp, by simp, by simp, ?_⟩
      exact fun _ => ⟨fun d hd => rfl, fun hn => (by cases hn)⟩

/-- Witness for the C2 theorem: mode foo on a store holding department 1
answers 400 with the store unchanged, after the read and the begin. -/
theorem C2_witness :
    deleteDepartment ⟨[⟨1, "a", none, 0⟩], []⟩ 1 "foo" "" noFail =
      ⟨400, ⟨[⟨1, "a", none, 0⟩], []⟩, [.firstDept, .beginTx]⟩ :=
  ((C2_invalid_mode ⟨[⟨1, "a", none, 0⟩], []⟩ 1 "foo" ""
      (by decide) (by decide) (by decide)).2.2.2.2.2
    (Or.inl rfl)).1 ⟨1, "a", none, 0⟩ rfl

theorem goAtoi_empty : goAtoi "" = .error () := rfl

/-- Reduction of the reassign path without injected failures when the
department and the target both exist. -/
theorem deleteDepartment_reassign_ok (st : Store) (deptID t : Int) (tStr : String)
    (dept target : Department)
    (hA : goAtoi tStr = .ok t)
    (hd : st.departments.find? (fun d => d.id = deptID) = some dept)
    (ht : st.departments.find? (fun d => d.id = t) = some target) :
    deleteDepartment st deptID "reassign" tStr noFail =
      ⟨204,
       applyCascadeDelete
         ⟨st.departments.map (fun d =>
             if d.parentID = some deptID then { d with parentID := some t } else d),
          st.employees.map (fun e =>
             if e.departmentID = deptID then { e with departmentID := t } else e)⟩ deptID,
       [.firstDept, .beginTx, .firstTarget, .updEmployees, .updDepartments,
        .deleteDept, .commitTx]⟩ := by
  have hne : tStr ≠ "" := fun h => by rw [h, goAtoi_empty] at hA; cases hA
  unfold deleteDepartment
  rw [if_neg (by decide : ¬("reassign" : String) = ""), if_neg hne, hA]
  dsimp only [Except.map, noFail]
  simp only [Option.isNone_some, Bool.and_false, Bool.false_eq_true, if_false,
    String.reduceEq, reduceIte]
  rw [hd, ht]

/-- Reduction of the reassign path without injected failures when the target
does not exist: 404 after rollback, with the store unchanged. -/
theorem deleteDepartment_reassign_notfound (st : Store) (deptID t : Int) (tStr : String)
    (dept : Department)
    (hA : goAtoi tStr = .ok t)
    (hd : st.departments.find? (fun d => d.id = deptID) = some dept)
    (ht : st.departments.find? (fun d => d.id = t) = none) :
    deleteDepartment st deptID "reassign" tStr noFail =
      ⟨404, st, [.firstDept, .beginTx, .firstTarget, .rollbackTx]⟩ := by
  have hne : tStr ≠ "" := fun h => by rw [h, goAtoi_empty] at hA; cases hA
  unfold deleteDepartment
  rw [if_neg (by decide : ¬("reassign" : String) = ""), if_neg hne, hA]
  dsimp only [Except.map, noFail]
  simp only [Option.isNone_some, Bool.and_false, Bool.false_eq_true, if_false,
    String.reduceEq, reduceIte]
  rw [hd, ht]

/-- After the child-reassignment UPDATE with a target other than the deleted
identifier, no department row names the deleted identifier as parent. -/
theorem mapped_no_parent (deps : List Department) (deptID t : Int) (hne : t ≠ deptID) :
    ∀ d ∈ deps.map (fun d =>
        if d.parentID = some deptID then { d with parentID := some t } else d),
      d.parentID ≠ some deptID := by
  intro d hd
  rcases List.mem_map.mp hd with ⟨d0, _, rfl⟩
  by_cases h : d0.parentID = some deptID
  · rw [if_pos h]
    intro hc
    exact hne (Option.some_injective _ hc)
  · rw [if_neg h]
    exact h

/-- After the employee-reassignment UPDATE with a target other than the
deleted identifier, no employee row references the deleted identifier. -/
theorem mapped_no_employee (emps : List Employee) (deptID t : Int) (hne : t ≠ deptID) :
    ∀ e ∈ emps.map (fun e =>
        if e.departmentID = deptID then { e with departmentID := t } else e),
      e.departmentID ≠ deptID := by
  intro e he
  rcases List.mem_map.mp he with ⟨e0, _, rfl⟩
  by_cases h : e0.departmentID = deptID
  · rw [if_pos h]
    exact fun hc => hne hc
  · rw [if_neg h]
    exact h

/-- Reassigning employees of a department to the department itself changes
nothing. -/
theorem emps_map_self (emps : List Employee) (deptID : Int) :
    emps.map (fun e =>
      if e.departmentID = deptID then { e with departmentID := deptID } else e) = emps := by
  induction emps with
  | nil => rfl
  | cons e t ih =>
    rw [List.map_cons, ih]
    by_cases h : e.departmentID = deptID
    · rw [if_pos h, ← h]
    · rw [if_neg h]

/-- Reparenting children of a department to the department itself changes
nothing. -/
theorem deps_map_self (deps : List Department) (deptID : Int) :
    deps.map (fun d =>
      if d.parentID = some deptID then { d with parentID := some deptID } else d) = deps := by
  induction deps with
  | nil => rfl
  | cons d t ih =>
    rw [List.map_cons, ih]
    by_cases h : d.parentID = some deptID
    · rw [if_pos h, ← h]
    · rw [if_neg h]

/-- Reduction of the cascade path without injected failures. -/
theorem deleteDepartment_cascade_ok (st : Store) (deptID : Int) (dept : Department)
    (hd : st.departments.find? (fun d => d.id = deptID) = some dept) :
    deleteDepartment st deptID "cascade" "" noFail =
      ⟨204, applyCascadeDelete st deptID,
       [.firstDept, .beginTx, .deleteDept, .commitTx]⟩ := by
  unfold deleteDepartment
  dsimp only [Except.map, noFail]
  simp only [String.reduceEq, reduceIte, Bool.false_and, Bool.and_false,
    Bool.false_eq_true, if_false, Option.isNone_none, Bool.and_true]
  rw [hd]
  simp

/-- Pointwise form of the singleton removal filter. -/
theorem contains_singleton_not (deptID : Int) (x : Int) :
    (!([deptID].contains x)) = decide (x ≠ deptID) := by
  by_cases h : x = deptID <;> simp [h]

/-- Claim C5 as amended: for a reassign deletion whose target is a
department other than the deleted one, the handler answers 204 and the final
store is exactly the original one with every employee of the deleted
department repointed to the target, every direct child repointed to the
target, and only the deleted row removed; grandchildren rows are untouched.
When the target does not exist the handler answers 404 with the store
unchanged.  (With the target equal to the deleted department itself the
deletion degenerates to a cascade, see the C9 theorem, which is why the
distinct-target hypothesis is needed.) -/
theorem C5_reassign_semantics (st : Store) (deptID t : Int) (tStr : String)
    (dept : Department)
    (hA : goAtoi tStr = .ok t)
    (hd : st.departments.find? (fun d => d.id = deptID) = some dept) :
    (∀ target, t ≠ deptID →
      st.departments.find? (fun d => d.id = t) = some target →
      deleteDepartment st deptID "reassign" tStr noFail =
        ⟨204,
         ⟨(st.departments.map (fun d =>
             if d.parentID = some deptID then { d with parentID := some t } else d)).filter
               (fun d => d.id ≠ deptID),
          st.employees.map (fun e =>
             if e.departmentID = deptID then { e with departmentID := t } else e)⟩,
         [.firstDept, .beginTx, .firstTarget, .updEmployees, .updDepartments,
          .deleteDept, .commitTx]⟩) ∧
    (st.departments.find? (fun d => d.id = t) = none →
      (deleteDepartment st deptID "reassign" tStr noFail).status = 404 ∧
      (deleteDepartment st deptID "reassign" tStr noFail).store = st) := by
  constructor
  · intro target hne htgt
    rw [deleteDepartment_reassign_ok st deptID t tStr dept target hA hd htgt]
    have hnp := mapped_no_parent st.departments deptID t hne
    have hcasc := cascadeIDs_no_children
      (st.departments.map (fun d =>
        if d.parentID = some deptID then { d with parentID := some t } else d)) deptID hnp
    unfold applyCascadeDelete
    rw [hcasc]
    dsimp only
    have hfe : (st.employees.map (fun e =>
        if e.departmentID = deptID then { e with departmentID := t } else e)).filter
          (fun e => !([deptID].contains e.departmentID)) =
        st.employees.map (fun e =>
          if e.departmentID = deptID then { e with departmentID := t } else e) := by
      rw [List.filter_eq_self]
      intro e he
      rw [contains_singleton_not]
      exact decide_eq_true (mapped_no_employee st.employees deptID t hne e he)
    have hfd : (st.departments.map (fun d =>
        if d.parentID = some deptID then { d with parentID := some t } else d)).filter
          (fun d => !([deptID].contains d.id)) =
        (st.departments.map (fun d =>
          if d.parentID = some deptID then { d with parentID := some t } else d)).filter
          (fun d => decide (d.id ≠ deptID)) := by
      refine List.filter_congr ?_
      intro d _
      exact contains_singleton_not deptID d.id
    rw [hfe, hfd]
  · intro htgt
    rw [deleteDepartment_reassign_notfound st deptID t tStr dept hA hd htgt]
    exact ⟨rfl, rfl⟩

/-- Claim C5, counterexample to the claim as stated: a successful reassign
deletion whose target is the deleted department itself returns 204, yet the
direct child is not kept repointed at the target: the final delete cascades
over the still-self-referential subtree and removes every department row. -/
theorem C5_counterexample :
    (deleteDepartment ⟨[⟨1, "a", none, 0⟩, ⟨2, "b", some 1, 0⟩], []⟩
      1 "reassign" "1" noFail).status = 204 ∧
    (deleteDepartment ⟨[⟨1, "a", none, 0⟩, ⟨2, "b", some 1, 0⟩], []⟩
      1 "reassign" "1" noFail).store.departments = [] :=
  ⟨rfl, rfl⟩

/-- Witness for the C5 theorem at a concrete store: department 1 with child
2, sibling 3, one employee under 1; reassigning to 3 moves the child and the
employee and deletes only row 1. -/
theorem C5_witness :
    deleteDepartment ⟨[⟨1, "a", none, 0⟩, ⟨2, "b", some 1, 0⟩, ⟨3, "c", none, 0⟩],
        [⟨1, 1, "x", "p", none, 0⟩]⟩ 1 "reassign" "3" noFail =
      ⟨204, ⟨[⟨2, "b", some 3, 0⟩, ⟨3, "c", none, 0⟩], [⟨1, 3, "x", "p", none, 0⟩]⟩,
       [.firstDept, .beginTx, .firstTarget, .updEmployees, .updDepartments,
        .deleteDept, .commitTx]⟩ :=
  (C5_reassign_semantics
    ⟨[⟨1, "a", none, 0⟩, ⟨2, "b", some 1, 0⟩, ⟨3, "c", none, 0⟩],
     [⟨1, 1, "x", "p", none, 0⟩]⟩ 1 3 "3" ⟨1, "a", none, 0⟩ rfl rfl).1
    ⟨3, "c", none, 0⟩ (by decide) rfl

/-- Claim C9: a reassign deletion whose target is the department being
deleted is not rejected: the target-existence check still sees the row
inside the transaction, both UPDATE statements change nothing, and the final
delete cascades over the whole subtree, so the request returns 204 and the
resulting store is exactly that of a cascade deletion. -/
theorem C9_reassign_to_self_is_cascade (st : Store) (deptID : Int) (tStr : String)
    (dept : Department)
    (hA : goAtoi tStr = .ok deptID)
    (hd : st.departments.find? (fun d => d.id = deptID) = some dept) :
    deleteDepartment st deptID "reassign" tStr noFail =
      ⟨204, applyCascadeDelete st deptID,
       [.firstDept, .beginTx, .firstTarget, .updEmployees, .updDepartments,
        .deleteDept, .commitTx]⟩ ∧
    (deleteDepartment st deptID "cascade" "" noFail).status = 204 ∧
    (deleteDepartment st deptID "cascade" "" noFail).store = applyCascadeDelete st deptID := by
  refine ⟨?_, ?_, ?_⟩
  · rw [deleteDepartment_reassign_ok st deptID deptID tStr dept dept hA hd hd,
      deps_map_self, emps_map_self]
  · rw [deleteDepartment_cascade_ok st deptID dept hd]
  · rw [deleteDepartment_cascade_ok st deptID dept hd]

/-- Witness for the C9 theorem: deleting department 1 with reassign target 1
removes the subtree rows 1 and 2 and the employee of 2, exactly as cascade
does. -/
theorem C9_witness :
    deleteDepartment ⟨[⟨1, "a", none, 0⟩, ⟨2, "b", some 1, 0⟩],
        [⟨7, 2, "x", "p", none, 0⟩]⟩ 1 "reassign" "1" noFail =
      ⟨204, ⟨[], []⟩,
       [.firstDept, .beginTx, .firstTarget, .updEmployees, .updDepartments,
        .deleteDept, .commitTx]⟩ ∧
    (deleteDepartment ⟨[⟨1, "a", none, 0⟩, ⟨2, "b", some 1, 0⟩],
        [⟨7, 2, "x", "p", none, 0⟩]⟩ 1 "cascade" "" noFail).store = ⟨[], []⟩ :=
  ⟨(C9_reassign_to_self_is_cascade
      ⟨[⟨1, "a", none, 0⟩, ⟨2, "b", some 1, 0⟩], [⟨7, 2, "x", "p", none, 0⟩]⟩
      1 "1" ⟨1, "a", none, 0⟩ rfl rfl).1,
   (C9_reassign_to_self_is_cascade
      ⟨[⟨1, "a", none, 0⟩, ⟨2, "b", some 1, 0⟩], [⟨7, 2, "x", "p", none, 0⟩]⟩
      1 "1" ⟨1, "a", none, 0⟩ rfl rfl).2.2⟩

/-- Claim C6: reassign deletion is atomic.  For every store, identifier, raw
target string and failure oracle: whenever the request does not end in 204
the visible store is exactly the original one (every failing step rolls the
transaction back and nothing was committed); a backend failure injected at
any step of the path, from the initial read through the commit, prevents the
204; and a 204 implies every step succeeded and the visible store is the
fully reassigned one in a single step, so no partially reassigned state is
ever visible. -/
theorem C6_reassign_transactional (st : Store) (deptID : Int) (tStr : String)
    (failsOn : DbOp → Bool) :
    ((deleteDepartment st deptID "reassign" tStr failsOn).status ≠ 204 →
      (deleteDepartment st deptID "reassign" tStr failsOn).store = st) ∧
    ((failsOn .firstDept || failsOn .beginTx || failsOn .firstTarget ||
        failsOn .updEmployees || failsOn .updDepartments || failsOn .deleteDept ||
        failsOn .commitTx) = true →
      (deleteDepartment st deptID "reassign" tStr failsOn).status ≠ 204 ∧
      (deleteDepartment st deptID "reassign" tStr failsOn).store = st) ∧
    ((deleteDepartment st deptID "reassign" tStr failsOn).status = 204 →
      ∃ t target, goAtoi tStr = .ok t ∧
        st.departments.find? (fun d => d.id = t) = some target ∧
        (deleteDepartment st deptID "reassign" tStr failsOn).store =
          applyCascadeDelete
            ⟨st.departments.map (fun d =>
                if d.parentID = some deptID then { d with parentID := some t } else d),
             st.employees.map (fun e =>
                if e.departmentID = deptID then { e with departmentID := t } else e)⟩
            deptID) := by
  unfold deleteDepartment
  rw [if_neg (by decide : ¬("reassign" : String) = "")]
  rcases hps : (if tStr = "" then Except.ok (none : Option Int)
      else (goAtoi tStr).map some) with e | reassignTo
  · exact ⟨fun _ => rfl, fun _ => ⟨by simp, rfl⟩, fun h => absurd h (by simp)⟩
  · dsimp only
    rcases reassignTo with _ | t
    · rw [if_pos (by decide)]
      exact ⟨fun _ => rfl, fun _ => ⟨by simp, rfl⟩, fun h => absurd h (by simp)⟩
    · have hA : goAtoi tStr = .ok t := by
        by_cases htS : tStr = ""
        · rw [if_pos htS] at hps; cases hps
        · rw [if_neg htS] at hps
          rcases hg : goAtoi tStr with e0 | v
          · rw [hg] at hps; cases hps
          · rw [hg] at hps
            cases hps
            rfl
      rw [if_neg (by simp : ¬(decide ("reassign" = "reassign") && (some t).isNone) = true)]
      rcases hf1 : failsOn .firstDept with _ | _
      case true =>
        rw [if_pos rfl]
        exact ⟨fun _ => rfl, fun _ => ⟨by simp, rfl⟩, fun h => absurd h (by simp)⟩
      rw [if_neg (by simp [hf1])]
      rcases hfind : st.departments.find? (fun d => decide (d.id = deptID)) with _ | dept
      · rw [hfind]
        exact ⟨fun _ => rfl, fun _ => ⟨by simp, rfl⟩, fun h => absurd h (by simp)⟩
      · rw [hfind]
        dsimp only
        rcases hf2 : failsOn .beginTx with _ | _
        case true =>
          rw [if_pos rfl]
          exact ⟨fun _ => rfl, fun _ => ⟨by simp, rfl⟩, fun h => absurd h (by simp)⟩
        rw [if_neg (by simp [hf2]), if_neg (by decide : ¬("reassign" : String) = "cascade"),
          if_pos (rfl : ("reassign" : String) = "reassign")]
        rcases hf3 : failsOn .firstTarget with _ | _
        case true =>
          rw [if_pos rfl]
          exact ⟨fun _ => rfl, fun _ => ⟨by simp, rfl⟩, fun h => absurd h (by simp)⟩
        rw [if_neg (by simp [hf3])]
        rcases htgt : st.departments.find? (fun d => decide (d.id = t)) with _ | target
        · rw [htgt]
          exact ⟨fun _ => rfl, fun _ => ⟨by simp, rfl⟩, fun h => absurd h (by simp)⟩
        · rw [htgt]
          dsimp only
          rcases hf4 : failsOn .updEmployees with _ | _
          case true =>
            rw [if_pos rfl]
            exact ⟨fun _ => rfl, fun _ => ⟨by simp, rfl⟩, fun h => absurd h (by simp)⟩
          rw [if_neg (by simp [hf4])]
          rcases hf5 : failsOn .updDepartments with _ | _
          case true =>
            rw [if_pos rfl]
            exact ⟨fun _ => rfl, fun _ => ⟨by simp, rfl⟩, fun h => absurd h (by simp)⟩
          rw [if_neg (by simp [hf5])]
          rcases hf6 : failsOn .deleteDept with _ | _
          case true =>
            rw [if_pos rfl]
            exact ⟨fun _ => rfl, fun _ => ⟨by simp, rfl⟩, fun h => absurd h (by simp)⟩
          rw [if_neg (by simp [hf6])]
          rcases hf7 : failsOn .commitTx with _ | _
          case true =>
            rw [if_pos rfl]
            exact ⟨fun _ => rfl, fun _ => ⟨by simp, rfl⟩, fun h => absurd h (by simp)⟩
          rw [if_neg (by simp [hf7])]
          refine ⟨fun h => absurd rfl h, ?_, ?_⟩
          · intro hor
            simp at hor
          · exact fun _ => ⟨t, target, hA, htgt, rfl⟩

/-- Oracle failing exactly the child-reassignment UPDATE. -/
def failUpdDepartments : DbOp → Bool := fun op => op == DbOp.updDepartments

/-- Witness for the C6 theorem: with a backend failure injected at the
child-reassignment UPDATE, the request does not return 204 and the visible
store is exactly the original one, with no trace of the partial employee
reassignment that preceded the failure. -/
theorem C6_witness :
    (deleteDepartment ⟨[⟨1, "a", none, 0⟩, ⟨2, "b", some 1, 0⟩, ⟨3, "c", none, 0⟩],
        [⟨1, 1, "x", "p", none, 0⟩]⟩ 1 "reassign" "3" failUpdDepartments).status ≠ 204 ∧
    (deleteDepartment ⟨[⟨1, "a", none, 0⟩, ⟨2, "b", some 1, 0⟩, ⟨3, "c", none, 0⟩],
        [⟨1, 1, "x", "p", none, 0⟩]⟩ 1 "reassign" "3" failUpdDepartments).store =
      ⟨[⟨1, "a", none, 0⟩, ⟨2, "b", some 1, 0⟩, ⟨3, "c", none, 0⟩],
       [⟨1, 1, "x", "p", none, 0⟩]⟩ :=
  (C6_reassign_transactional
    ⟨[⟨1, "a", none, 0⟩, ⟨2, "b", some 1, 0⟩, ⟨3, "c", none, 0⟩],
     [⟨1, 1, "x", "p", none, 0⟩]⟩ 1 "3" failUpdDepartments).2.1 (by decide)

/-- Sort-key difference in the query parameters changes only the stored sort
string, never success or the other fields. -/
theorem parseGetParams_sort_swap (dStr ieStr : String) :
    parseGetParams dStr ieStr "created_at" =
      (parseGetParams dStr ieStr "full_name").map
        (fun p => ⟨p.depth, p.includeEmployees, "created_at"⟩) := by
  unfold parseGetParams
  rcases hdp : (if dStr = "" then Except.ok (1 : Int)
      else match goAtoi dStr with
        | .ok v => if 1 ≤ v && v ≤ 5 then Except.ok v
          else .error "depth must be integer between 1 and 5"
        | .error _ => .error "depth must be integer between 1 and 5") with e | depth
  · rfl
  · dsimp only
    split <;> rfl

/-- Claim C3 as amended.  The handler renders the local root variable, which
the linking loop never touches (the map holds copies), so every successful
response carries empty children and employees lists; in particular no
children ordering is observable, and the sort_employees key has no effect on
the body at all. -/
theorem C3_children_not_bfs_order :
    (∀ (st : Store) (deptID : Int) (dStr ieStr sStr : String) (iterOrder : List Int)
       (r : DeptResponse),
       (getDepartment st deptID dStr ieStr sStr iterOrder).body = some r →
       r.children = [] ∧ r.employees = []) ∧
    (∀ (st : Store) (deptID : Int) (dStr ieStr : String) (iterOrder : List Int),
       (getDepartment st deptID dStr ieStr "full_name" iterOrder).body =
         (getDepartment st deptID dStr ieStr "created_at" iterOrder).body) := by
  constructor
  · intro st deptID dStr ieStr sStr iterOrder r hbody
    unfold getDepartment at hbody
    rcases hp : parseGetParams dStr ieStr sStr with e | params
    · rw [hp] at hbody; cases hbody
    · rw [hp] at hbody
      rcases hf : st.departments.find? (fun d => decide (d.id = deptID)) with _ | rootRow
      · rw [hf] at hbody; cases hbody
      · rw [hf] at hbody
        dsimp only at hbody
        cases hbody
        exact toResponse_nil_children params.depth params.includeEmployees rootRow 0
  · intro st deptID dStr ieStr iterOrder
    unfold getDepartment
    rw [parseGetParams_sort_swap]
    rcases hp : parseGetParams dStr ieStr "full_name" with e | params <;>
      rcases hf : st.departments.find? (fun d => decide (d.id = deptID)) with _ | rootRow <;>
      rfl

/-- Claim C3, counterexample to the claim as stated: the breadth-first load
of the subtree of department 1 brings in children 2 and 3 in insertion
order, yet the rendered children list of the response root is empty, so it
does not equal that insertion order. -/
theorem C3_counterexample :
    ((getDepartment ⟨[⟨1, "a", none, 0⟩, ⟨2, "b", some 1, 0⟩, ⟨3, "c", some 1, 0⟩], []⟩
        1 "2" "" "" [1, 2, 3]).body.map (fun r => r.children.length)) = some 0 ∧
    childIDs [⟨1, "a", none, 0⟩, ⟨2, "b", some 1, 0⟩, ⟨3, "c", some 1, 0⟩] 1 = [2, 3] := by
  constructor
  · show some ((toResponse 2 true (loadDept ⟨1, "a", none, 0⟩) 0).children.length) = some 0
    rw [(toResponse_nil_children 2 true ⟨1, "a", none, 0⟩ 0).1]
    rfl
  · rfl

/-- Witness for the C3 theorem at a concrete request. -/
theorem C3_witness :
    (toResponse 1 true (loadDept ⟨1, "a", none, 0⟩) 0).children = [] ∧
    (toResponse 1 true (loadDept ⟨1, "a", none, 0⟩) 0).employees = [] :=
  (C3_children_not_bfs_order.1 ⟨[⟨1, "a", none, 0⟩], []⟩ 1 "" "" "" []
    (toResponse 1 true (loadDept ⟨1, "a", none, 0⟩) 0) rfl)

/-- Claim C7 (code bug).  On the four-level chain 1 - 2 - 3 - 4 a GET of
department 1 with depth=2 does answer 200, but the body is the bare root:
the handler builds and links the subtree inside the identifier map and then
renders the untouched local root variable, so the response includes neither
the direct child nor the grandchild the claim promises. -/
theorem C7_depth2_renders_bare_root :
    (getDepartment ⟨[⟨1, "a", none, 0⟩, ⟨2, "b", some 1, 0⟩, ⟨3, "c", some 2, 0⟩,
        ⟨4, "d", some 3, 0⟩], []⟩ 1 "2" "" "" [1, 2, 3]).status = 200 ∧
    ((getDepartment ⟨[⟨1, "a", none, 0⟩, ⟨2, "b", some 1, 0⟩, ⟨3, "c", some 2, 0⟩,
        ⟨4, "d", some 3, 0⟩], []⟩ 1 "2" "" "" [1, 2, 3]).body.map
      (fun r => r.children.length)) = some 0 := by
  constructor
  · rfl
  · show some ((toResponse 2 true (loadDept ⟨1, "a", none, 0⟩) 0).children.length) = some 0
    rw [(toResponse_nil_children 2 true ⟨1, "a", none, 0⟩ 0).1]
    rfl

/-- Claim C10: the GET query defaults and their validation.  Omitted
parameters give depth 1, include_employees true and sort full_name, and a
request with all three omitted behaves exactly as one with those values
spelled out; a present but malformed or out-of-range value of any of the
three makes parsing fail, and the handler then answers 400 with an empty
operation trace: the store has not been read. -/
theorem C10_get_parameter_defaults :
    (parseGetParams "" "" "" = .ok ⟨1, true, "full_name"⟩) ∧
    (∀ (st : Store) (deptID : Int) (iterOrder : List Int),
      getDepartment st deptID "" "" "" iterOrder =
        getDepartment st deptID "1" "true" "full_name" iterOrder) ∧
    (∀ dStr ieStr sStr, (∃ e, parseGetParams dStr ieStr sStr = .error e) →
      ∀ (st : Store) (deptID : Int) (iterOrder : List Int),
        (getDepartment st deptID dStr ieStr sStr iterOrder).status = 400 ∧
        (getDepartment st deptID dStr ieStr sStr iterOrder).effects = []) ∧
    (∀ dStr, dStr ≠ "" → (∀ v, goAtoi dStr = .ok v → ¬(1 ≤ v ∧ v ≤ 5)) →
      ∀ ieStr sStr, ∃ e, parseGetParams dStr ieStr sStr = .error e) ∧
    (∀ ieStr, ieStr ≠ "" → (∀ b, goParseBool ieStr ≠ .ok b) →
      ∀ dStr sStr, ∃ e, parseGetParams dStr ieStr sStr = .error e) ∧
    (∀ sStr, sStr ≠ "" → sStr ≠ "full_name" → sStr ≠ "created_at" →
      ∀ dStr ieStr, ∃ e, parseGetParams dStr ieStr sStr = .error e) := by
  refine ⟨rfl, fun st deptID iterOrder => rfl, ?_, ?_, ?_, ?_⟩
  · intro dStr ieStr sStr he st deptID iterOrder
    rcases he with ⟨e, he⟩
    unfold getDepartment
    rw [he]
    exact ⟨rfl, rfl⟩
  · intro dStr hne hbad ieStr sStr
    unfold parseGetParams
    rw [if_neg hne]
    rcases hA : goAtoi dStr with u | v
    · exact ⟨"depth must be integer between 1 and 5", rfl⟩
    · have hb := hbad v hA
      have hcond : ¬((decide (1 ≤ v) && decide (v ≤ 5)) = true) := by
        simp only [Bool.and_eq_true, decide_eq_true_eq]
        exact hb
      dsimp only
      rw [if_neg hcond]
      exact ⟨"depth must be integer between 1 and 5", rfl⟩
  · intro ieStr hne hbad dStr sStr
    unfold parseGetParams
    rcases hdp : (if dStr = "" then Except.ok (1 : Int)
        else match goAtoi dStr with
          | .ok v => if 1 ≤ v && v ≤ 5 then Except.ok v
            else .error "depth must be integer between 1 and 5"
          | .error _ => .error "depth must be integer between 1 and 5") with e | depth
    · exact ⟨e, rfl⟩
    · rw [if_neg hne]
      rcases hpb : goParseBool ieStr with u | b
      · exact ⟨"include_employees must be boolean", rfl⟩
      · exact absurd hpb (hbad b)
  · intro sStr h1 h2 h3 dStr ieStr
    unfold parseGetParams
    rcases hdp : (if dStr = "" then Except.ok (1 : Int)
        else match goAtoi dStr with
          | .ok v => if 1 ≤ v && v ≤ 5 then Except.ok v
            else .error "depth must be integer between 1 and 5"
          | .error _ => .error "depth must be integer between 1 and 5") with e | depth
    · exact ⟨e, rfl⟩
    · rcases hie : (if ieStr = "" then Except.ok true
          else match goParseBool ieStr with
            | .ok v => Except.ok v
            | .error _ => .error "include_employees must be boolean") with e | ie
      · exact ⟨e, rfl⟩
      · dsimp only
        rw [if_neg h1, if_neg (by simp [h2, h3])]
        exact ⟨"sort_employees must be full_name or created_at", rfl⟩

/-- Witness for the C10 theorem: an out-of-range depth of 9 on a singleton
store answers 400 without touching the store. -/
theorem C10_witness :
    (getDepartment ⟨[⟨1, "a", none, 0⟩], []⟩ 1 "9" "" "" []).status = 400 ∧
    (getDepartment ⟨[⟨1, "a", none, 0⟩], []⟩ 1 "9" "" "" []).effects = [] :=
  C10_get_parameter_defaults.2.2.1 "9" "" ""
    (C10_get_parameter_defaults.2.2.2.1 "9" (by decide)
      (fun v hv => by cases hv; decide) "" "")
    ⟨[⟨1, "a", none, 0⟩], []⟩ 1 []

/-- Claim C4: the reparent check accepts a null parent, rejects the own
identifier at once, errors exactly on the strict descendants of the
department, reachable from its direct children along parent-to-child edges,
and accepts everything else; and the PATCH handler maps any cycle error to
HTTP 409 with the store unchanged. -/
theorem C4_cycle_check :
    (∀ (db : List Department) (d : Department), d.CheckCycle db none = .ok ()) ∧
    (∀ (db : List Department) (d : Department),
      d.CheckCycle db (some d.id) = .error "cannot be parent of itself") ∧
    (∀ (db : List Department) (d : Department) (p : Int), p ≠ d.id →
      ((∃ e, d.CheckCycle db (some p) = .error e) ↔
        Relation.TransGen (childRel db) d.id p)) ∧
    (∀ (st : Store) (deptID : Int) (req : UpdateDepartmentRequest) (dept : Department)
       (p : Int), req.parentID = some p →
      st.departments.find? (fun d => d.id = deptID) = some dept →
      (∃ e, dept.CheckCycle st.departments (some p) = .error e) →
      (p ≠ 0 → ∃ par, st.departments.find? (fun d => d.id = p) = some par) →
      updateDepartment st deptID req = ⟨409, st⟩) := by
  refine ⟨fun db d => rfl, ?_, ?_, ?_⟩
  · intro db d
    unfold Department.CheckCycle
    dsimp only
    rw [if_pos rfl]
  · intro db d p hp
    constructor
    · rintro ⟨e, he⟩
      exact CheckCycle_error_desc db d p e hp he
    · exact CheckCycle_desc_error db d p hp
  · intro st deptID req dept p hreq hfind hcyc hpar
    rcases hcyc with ⟨e, he⟩
    unfold updateDepartment
    rw [hfind]
    dsimp only
    rw [hreq]
    dsimp only
    by_cases hp0 : p = 0
    · rw [if_neg (fun h => h hp0), he]
    · rw [if_pos hp0]
      rcases hpar hp0 with ⟨par, hfp⟩
      rw [hfp, he]

/-- Witness for the C4 theorem on the chain 1 - 2 - 3: reparenting 1 under
its grandchild 3 is a cycle error, and the PATCH request answers 409. -/
theorem C4_witness :
    (∃ e, Department.CheckCycle ⟨1, "a", none, 0⟩
      [⟨1, "a", none, 0⟩, ⟨2, "b", some 1, 0⟩, ⟨3, "c", some 2, 0⟩] (some 3) = .error e) ∧
    updateDepartment ⟨[⟨1, "a", none, 0⟩, ⟨2, "b", some 1, 0⟩, ⟨3, "c", some 2, 0⟩], []⟩ 1
      ⟨none, some 3⟩ =
      ⟨409, ⟨[⟨1, "a", none, 0⟩, ⟨2, "b", some 1, 0⟩, ⟨3, "c", some 2, 0⟩], []⟩⟩ := by
  have hdesc : Relation.TransGen
      (childRel [⟨1, "a", none, 0⟩, ⟨2, "b", some 1, 0⟩, ⟨3, "c", some 2, 0⟩]) 1 3 :=
    Relation.TransGen.tail
      (Relation.TransGen.single
        (show (2 : Int) ∈ childIDs [⟨1, "a", none, 0⟩, ⟨2, "b", some 1, 0⟩,
          ⟨3, "c", some 2, 0⟩] 1 by decide))
      (show (3 : Int) ∈ childIDs [⟨1, "a", none, 0⟩, ⟨2, "b", some 1, 0⟩,
        ⟨3, "c", some 2, 0⟩] 2 by decide)
  have hcyc := (C4_cycle_check.2.2.1
    [⟨1, "a", none, 0⟩, ⟨2, "b", some 1, 0⟩, ⟨3, "c", some 2, 0⟩]
    ⟨1, "a", none, 0⟩ 3 (by decide)).mpr hdesc
  exact ⟨hcyc,
    C4_cycle_check.2.2.2 ⟨[⟨1, "a", none, 0⟩, ⟨2, "b", some 1, 0⟩, ⟨3, "c", some 2, 0⟩], []⟩
      1 ⟨none, some 3⟩ ⟨1, "a", none, 0⟩ 3 rfl rfl hcyc
      (fun _ => ⟨⟨3, "c", some 2, 0⟩, rfl⟩)⟩

/-- Claim C8 as amended.  Both hooks mutate the record to its trimmed form,
the record a successful save returns is exactly the input with the string
fields trimmed, and persistence fails when a trimmed field is empty or
longer than 200 UTF-8 bytes: Go len counts bytes, which coincides with the
claimed 200 characters only for ASCII values. -/
theorem C8_trim_and_byte_bounds :
    (∀ (d : Department) (tx : List Department) (r : Department),
      d.BeforeSave tx = .ok r → r = { d with name := goTrim d.name }) ∧
    (∀ (d : Department) (tx : List Department),
      goLen (goTrim d.name) = 0 → ∃ e, d.BeforeSave tx = .error e) ∧
    (∀ (d : Department) (tx : List Department),
      goLen (goTrim d.name) > 200 → ∃ e, d.BeforeSave tx = .error e) ∧
    (∀ (e : Employee) (r : Employee),
      e.BeforeSave = .ok r →
        r = { e with fullName := goTrim e.fullName, position := goTrim e.position }) ∧
    (∀ (e : Employee),
      goLen (goTrim e.fullName) = 0 ∨ goLen (goTrim e.fullName) > 200 ∨
        goLen (goTrim e.position) = 0 ∨ goLen (goTrim e.position) > 200 →
      ∃ msg, e.BeforeSave = .error msg) := by
  refine ⟨?_, ?_, ?_, ?_, ?_⟩
  · intro d tx r h
    unfold Department.BeforeSave at h
    dsimp only at h
    by_cases h1 : goLen (goTrim d.name) = 0
    · rw [if_pos h1] at h; cases h
    · rw [if_neg h1] at h
      by_cases h2 : goLen (goTrim d.name) > 200
      · rw [if_pos h2] at h; cases h
      · rw [if_neg h2] at h
        split at h <;> split at h <;>
          first
          | (cases h; rfl)
          | cases h
  · intro d tx h0
    unfold Department.BeforeSave
    rw [if_pos h0]
    exact ⟨"name cannot be empty", rfl⟩
  · intro d tx h0
    unfold Department.BeforeSave
    rw [if_neg (by omega), if_pos h0]
    exact ⟨"name too long (max 200)", rfl⟩
  · intro e r h
    unfold Employee.BeforeSave at h
    dsimp only at h
    by_cases h1 : goLen (goTrim e.fullName) = 0
    · rw [if_pos h1] at h; cases h
    · rw [if_neg h1] at h
      by_cases h2 : goLen (goTrim e.fullName) > 200
      · rw [if_pos h2] at h; cases h
      · rw [if_neg h2] at h
        by_cases h3 : goLen (goTrim e.position) = 0
        · rw [if_pos h3] at h; cases h
        · rw [if_neg h3] at h
          by_cases h4 : goLen (goTrim e.position) > 200
          · rw [if_pos h4] at h; cases h
          · rw [if_neg h4] at h
            cases h
            rfl
  · intro e h0
    unfold Employee.BeforeSave
    rcases h0 with h0 | h0 | h0 | h0
    · rw [if_pos h0]
      exact ⟨"full_name cannot be empty", rfl⟩
    · rw [if_neg (by omega), if_pos h0]
      exact ⟨"full_name too long (max 200)", rfl⟩
    · by_cases h1 : goLen (goTrim e.fullName) = 0
      · rw [if_pos h1]
        exact ⟨"full_name cannot be empty", rfl⟩
      · by_cases h2 : goLen (goTrim e.fullName) > 200
        · rw [if_neg h1, if_pos h2]
          exact ⟨"full_name too long (max 200)", rfl⟩
        · rw [if_neg h1, if_neg h2, if_pos h0]
          exact ⟨"position cannot be empty", rfl⟩
    · by_cases h1 : goLen (goTrim e.fullName) = 0
      · rw [if_pos h1]
        exact ⟨"full_name cannot be empty", rfl⟩
      · by_cases h2 : goLen (goTrim e.fullName) > 200
        · rw [if_neg h1, if_pos h2]
          exact ⟨"full_name too long (max 200)", rfl⟩
        · rw [if_neg h1, if_neg h2, if_neg (by omega), if_pos h0]
          exact ⟨"position too long (max 200)", rfl⟩

/-- Claim C8, counterexample to the claim as stated: a trimmed full name of
101 Cyrillic letters has 101 characters, well within the claimed 200
character bound, yet the hook rejects it, because each letter occupies two
UTF-8 bytes and the Go length check counts 202 bytes. -/
theorem C8_counterexample :
    Employee.BeforeSave ⟨0, 1, String.mk (List.replicate 101 'й'), "dev", none, 0⟩ =
      .error "full_name too long (max 200)" ∧
    (String.mk (List.replicate 101 'й')).length = 101 ∧
    goTrim (String.mk (List.replicate 101 'й')) = String.mk (List.replicate 101 'й') :=
  ⟨rfl, rfl, rfl⟩

/-- Witness for the C8 theorem: a saved department record equals the input
with the name trimmed, and an all-blank name is rejected. -/
theorem C8_witness :
    (({ id := 4, name := "A", parentID := none, createdAt := 0 } : Department) =
      { (⟨4, " A ", none, 0⟩ : Department) with name := goTrim " A " }) ∧
    (∃ e1, Department.BeforeSave ⟨0, " ", none, 0⟩ [] = .error e1) :=
  ⟨C8_trim_and_byte_bounds.1 ⟨4, " A ", none, 0⟩ [] ⟨4, "A", none, 0⟩ rfl,
   C8_trim_and_byte_bounds.2.1 ⟨0, " ", none, 0⟩ [] (by decide)⟩
